import Mathlib

/-
Shallow embedding of the cardsphere-helper content script (final revision:
src/unnamed/part_001, second revision in the file, lines 394-918).

The script parses "package" listing elements from a page into snapshot
records (parsePackage), derives three identity keys from each snapshot
(getBasePackageKey, getPackageKeyWithPercentage, getFullPackageKey),
classifies each current package against the previously stored set
(the body of initializeState), persists the current set, and guards the
whole cycle with a reentrancy flag (beginInitialization).

Modelling conventions:
- DOM elements are modelled by records carrying exactly the text values the
  script reads from them; a missing sub-element is an Option that is none.
  The `element` back-references stored in intermediate records (and deleted
  before persistence) are not modelled: no comparison or key ever reads them.
- JavaScript string operations map to String append; the regexes
  (capture of a digit run immediately followed by a marker character, as in
  the quantity and percentage patterns) are modelled by firstDigitRunBefore,
  which mirrors leftmost-match semantics.
- Array.prototype.sort with the comparator on card names (localeCompare) is
  modelled by the stable List.insertionSort on code-point order of the name;
  any stable sort agrees with it elementwise, and JS sort is stable.
- A JS Map built with repeated set and then queried with get is modelled by
  a left fold in insertion order whose later matches overwrite earlier ones
  (last write wins), exactly the Map semantics.
- An async function that throws (storage failure, or the TypeError raised by
  reading a property of a missing heading element) is modelled with Option /
  explicit failure events.
-/

/-- One priced item within a package, as stored (src/unnamed/part_001
lines 418-424, after the element reference is stripped). -/
structure CardSnapshot where
  name : String
  condition : String
  price : String
  quantity : String
deriving DecidableEq

/-- One listing's canonical state (src/unnamed/part_001 lines 427-435,
after the element reference is stripped). -/
structure PackageSnapshot where
  username : String
  total : String
  efficiencyText : String
  efficiencyPercentage : String
  cards : List CardSnapshot
deriving DecidableEq

/-- Comparator used by the card sort: card names compared as sequences of
code points. Models the comparator li-to-li `a.name.localeCompare(b.name)`
of src/unnamed/part_001 line 425. -/
def cardLE (a b : CardSnapshot) : Prop :=
  a.name.data ≤ b.name.data

instance : DecidableRel cardLE :=
  fun a b => (inferInstance : Decidable (a.name.data ≤ b.name.data))

instance : IsTotal CardSnapshot cardLE :=
  ⟨fun a b => le_total a.name.data b.name.data⟩

instance : IsTrans CardSnapshot cardLE :=
  ⟨fun _ _ _ h1 h2 => le_trans h1 h2⟩

/-- Strict version of the card comparator, used only in proofs. -/
def cardLT (a b : CardSnapshot) : Prop :=
  a.name.data < b.name.data

instance : IsAntisymm CardSnapshot cardLT :=
  ⟨fun _ _ h1 h2 => absurd h1 (lt_asymm h2)⟩

/-- The element `.package-heading` of a listing: the three text values the
script reads from it. A missing sub-element is none (the script substitutes
the empty string via optional chaining). -/
structure HeadingElem where
  linkText : Option String
  strongText : Option String
  efficiencyIdx : Option String
deriving DecidableEq

/-- One `li` element of the package body: the text values the script reads,
the full text content (searched for the quantity pattern), and whether the
element carries the class flagging a show-more placeholder. -/
structure ItemElem where
  linkText : Option String
  conditionText : Option String
  strongText : Option String
  textContent : String
  isMore : Bool
deriving DecidableEq

/-- One listing element (`.cs-package`). The heading is an Option because
`querySelector` can return null; the script reads from the heading without
optional chaining, so a missing heading makes parsePackage fail. -/
structure ListingElem where
  heading : Option HeadingElem
  items : List ItemElem
deriving DecidableEq

/-- Leftmost match of the pattern: a run of digits immediately followed by
the marker character; returns the digit run. Models the JS regexes for
quantity (digits before a letter x) and percentage (digits before the
percent sign). A greedy digit run that fails the marker test cannot match
on a shorter prefix (the next character would be a digit), so scanning
forward one character at a time is exactly leftmost-match semantics. -/
def firstDigitRunBefore (mark : Char) : List Char → Option String
  | [] => none
  | c :: rest =>
    if ((c :: rest).takeWhile Char.isDigit).isEmpty then
      firstDigitRunBefore mark rest
    else if ((c :: rest).dropWhile Char.isDigit).head? = some mark then
      some (String.mk ((c :: rest).takeWhile Char.isDigit))
    else
      firstDigitRunBefore mark rest

/-- Parse one card item (src/unnamed/part_001 lines 418-424): each text
value defaults to the empty string when the sub-element is missing, and the
quantity defaults to the string one when no quantity pattern occurs. -/
def parseCard (li : ItemElem) : CardSnapshot :=
  { name := li.linkText.getD ("")
    condition := li.conditionText.getD ("")
    price := li.strongText.getD ("")
    quantity := (firstDigitRunBefore 'x' li.textContent.data).getD ("1") }

/-- Parse one package element (src/unnamed/part_001 lines 404-435). When
the heading element is missing, the script dereferences null and throws;
this is the none case. Cards are the non-placeholder items, parsed and then
sorted by name with a stable sort. -/
def parsePackage (pkg : ListingElem) : Option PackageSnapshot :=
  match pkg.heading with
  | none => none
  | some heading =>
    some { username := heading.linkText.getD ("")
           total := heading.strongText.getD ("")
           efficiencyText := heading.efficiencyIdx.getD ("")
           efficiencyPercentage :=
             (firstDigitRunBefore '%' (heading.efficiencyIdx.getD ("")).data).getD ("")
           cards := List.insertionSort cardLE
             ((pkg.items.filter (fun li => !li.isMore)).map parseCard) }

/-- Card signature template (src/unnamed/part_001 lines 441 and 606):
quantity, then the letter x and a space, then the name, a space, and the
condition. The same template is used for the base key, the full key prefix
and the per-card lookup key of the price-changed branch. -/
def cardSignature (card : CardSnapshot) : String :=
  card.quantity ++ "x " ++ card.name ++ " " ++ card.condition

/-- Extended card signature used by the full key (src/unnamed/part_001
line 455): the card signature with a space and the price text appended. -/
def extendedCardSignature (card : CardSnapshot) : String :=
  card.quantity ++ "x " ++ card.name ++ " " ++ card.condition ++ " " ++ card.price

/-- Array.join with a vertical bar separator, as used for signature lists. -/
def joinBar : List String → String
  | [] => ""
  | [s] => s
  | s :: t :: rest => s ++ "|" ++ joinBar (t :: rest)

/-- Base key (src/unnamed/part_001 lines 439-445): username, a dash, and
the bar-joined card signatures. -/
def getBasePackageKey (pkgObj : PackageSnapshot) : String :=
  pkgObj.username ++ "-" ++ joinBar (pkgObj.cards.map cardSignature)

/-- Percentage key (src/unnamed/part_001 lines 448-450): the base key, a
dash, and the efficiency percentage. -/
def getPackageKeyWithPercentage (pkgObj : PackageSnapshot) : String :=
  getBasePackageKey pkgObj ++ "-" ++ pkgObj.efficiencyPercentage

/-- Full key (src/unnamed/part_001 lines 453-459): username, total,
efficiency percentage and the bar-joined extended card signatures, joined
by dashes. -/
def getFullPackageKey (pkgObj : PackageSnapshot) : String :=
  pkgObj.username ++ "-" ++ pkgObj.total ++ "-" ++ pkgObj.efficiencyPercentage ++ "-" ++
    joinBar (pkgObj.cards.map extendedCardSignature)

/-- Classification of one current package, together with the previous-value
payload handed to the rendering layer (the arguments the script passes to
displayOldPackageTotal and displayOldPriceInfo). -/
inductive PackageClass where
  | new : PackageClass
  | offerChanged (oldTotal oldEfficiencyText : String) : PackageClass
  | priceChanged (oldTotal oldEfficiencyText : String)
      (cardPrevPrices : List (CardSnapshot × String)) : PackageClass
  | unchanged : PackageClass
deriving DecidableEq

/-- Lookup in the base-key Map built at src/unnamed/part_001 lines 549-564:
the Map is populated by set in list order, so a get returns the last
package whose base key equals the queried key. -/
def lookupBase (prevPackages : List PackageSnapshot) (key : String) :
    Option PackageSnapshot :=
  prevPackages.foldl
    (fun acc p => if getBasePackageKey p = key then some p else acc) none

/-- Lookup in the per-card Map built at src/unnamed/part_001 lines 604-608,
keyed by the card signature; last write wins as for any JS Map. -/
def lookupPrevCard (prevCards : List CardSnapshot) (key : String) :
    Option CardSnapshot :=
  prevCards.foldl
    (fun acc c => if cardSignature c = key then some c else acc) none

/-- Card-level previous-price payload of the price-changed branch
(src/unnamed/part_001 lines 610-620): for each current card whose signature
matches a previous card and whose price text differs from that previous
card's, the pair of the card and the previous price text. -/
def priceChangePayload (prevPkg currPkg : PackageSnapshot) :
    List (CardSnapshot × String) :=
  currPkg.cards.filterMap fun card =>
    match lookupPrevCard prevPkg.cards (cardSignature card) with
    | some prevCard =>
      if prevCard.price ≠ card.price then some (card, prevCard.price) else none
    | none => none

/-- Classification of one current package against the previous set
(src/unnamed/part_001 lines 567-623): no base-key match means new;
otherwise a differing percentage key means offer changed (with the previous
total and efficiency text as payload); otherwise a differing full key means
price changed (same package payload plus the card payload); otherwise the
package is unchanged and gets no annotation. -/
def classifyPackage (prevPackages : List PackageSnapshot)
    (currPkg : PackageSnapshot) : PackageClass :=
  match lookupBase prevPackages (getBasePackageKey currPkg) with
  | none => PackageClass.new
  | some prevPkg =>
    if getPackageKeyWithPercentage prevPkg ≠ getPackageKeyWithPercentage currPkg then
      PackageClass.offerChanged prevPkg.total prevPkg.efficiencyText
    else if getFullPackageKey prevPkg ≠ getFullPackageKey currPkg then
      PackageClass.priceChanged prevPkg.total prevPkg.efficiencyText
        (priceChangePayload prevPkg currPkg)
    else
      PackageClass.unchanged

/-- Classification of every current package, in order. -/
def classify (currentPackages prevPackages : List PackageSnapshot) :
    List PackageClass :=
  currentPackages.map (classifyPackage prevPackages)

/-- Parse every listing element of the page; fails when any listing makes
parsePackage fail (the thrown TypeError aborts the whole cycle). -/
def parseAll (pkgs : List ListingElem) : Option (List PackageSnapshot) :=
  pkgs.mapM parsePackage

/-- Data flow of one successful cycle (the body of initializeState after
its guards, src/unnamed/part_001 lines 537-644): parse the current
packages, load the stored set (an absent store value is the empty list),
classify, and persist the freshly parsed set as a full replace. Returns the
classifications and the newly persisted set. -/
def runCycle (page : List ListingElem)
    (stored : Option (List PackageSnapshot)) :
    Option (List PackageClass × List PackageSnapshot) :=
  match parseAll page with
  | none => none
  | some currentPackages =>
    some (classify currentPackages (stored.getD []), currentPackages)

/-- Suspension point of the in-flight cycle: none (idle), at the store
load, or at the store save. -/
inductive Phase where
  | idle : Phase
  | loading : Phase
  | saving : Phase
deriving DecidableEq, Fintype

/-- Control state of the run controller. isDone models the JS flag
isInitialized (set after a successful save); isRunning models the JS flag
isInitializing (set by beginInitialization before the cycle starts). -/
structure Ctrl where
  isDone : Bool
  isRunning : Bool
  phase : Phase
deriving DecidableEq, Fintype

/-- Events the event loop can deliver to the controller: a trigger (the
one-shot call, or a mutation notification; the flag says whether listing
elements are present), and the completion or failure of the pending store
operation. -/
inductive Event where
  | trigger (hasPackages : Bool) : Event
  | loadOk : Event
  | loadFail : Event
  | saveOk : Event
  | saveFail : Event
deriving DecidableEq, Fintype

/-- Initial controller state of a fresh page view. -/
def initCtrl : Ctrl :=
  { isDone := false, isRunning := false, phase := Phase.idle }

/-- One atomic step of the controller (src/unnamed/part_001 lines 886-907).
A trigger models beginInitialization run synchronously up to the first
await: it returns at once when either flag is set; with no packages the
cycle returns early and the guard is released again (net identity);
otherwise it sets isRunning and leaves the cycle suspended at the load.
JavaScript runs each such segment without preemption, so the guard is set
in the same atomic step in which the load begins. Completion events resume
the suspended segment: a successful load runs the classification and
suspends at the save; a successful save sets isInitialized and releases the
guard. A failed load or save propagates the rejection out of
initializeState, so the line of beginInitialization that clears
isInitializing never runs: the failure events leave isRunning set. -/
def step (e : Event) (st : Ctrl) : Ctrl :=
  match e with
  | Event.trigger hasPackages =>
    if st.isDone || st.isRunning then st
    else if hasPackages then
      { st with isRunning := true, phase := Phase.loading }
    else st
  | Event.loadOk =>
    match st.phase with
    | Phase.loading => { st with phase := Phase.saving }
    | _ => st
  | Event.loadFail =>
    match st.phase with
    | Phase.loading => { st with phase := Phase.idle }
    | _ => st
  | Event.saveOk =>
    match st.phase with
    | Phase.saving =>
      { st with isDone := true, isRunning := false, phase := Phase.idle }
    | _ => st
  | Event.saveFail =>
    match st.phase with
    | Phase.saving => { st with phase := Phase.idle }
    | _ => st

/-- Run a sequence of events. -/
def stepAll (es : List Event) (st : Ctrl) : Ctrl :=
  es.foldl (fun s e => step e s) st

/-- Controller invariant: whenever a cycle is suspended at a store
operation, the reentrancy guard is set. -/
def CtrlInv (st : Ctrl) : Prop :=
  st.phase ≠ Phase.idle → st.isRunning = true

/-- Appending the same string on the left is cancellative. -/
theorem str_append_left_cancel {c a b : String} (h : c ++ a = c ++ b) : a = b := by
  apply String.ext
  have hd := congrArg String.data h
  simp only [String.data_append] at hd
  exact List.append_cancel_left hd

/-- Appending the same string on the right is cancellative. -/
theorem str_append_right_cancel {a b c : String} (h : a ++ c = b ++ c) : a = b := by
  apply String.ext
  have hd := congrArg String.data h
  simp only [String.data_append] at hd
  exact List.append_cancel_right hd

/-- Data of the dash separator literal. -/
theorem dash_data : ("-" : String).data = ['-'] := rfl

/-- Behavior of classifyPackage when the base-key lookup finds a previous
package. -/
theorem classifyPackage_eq_of_lookup {prevPackages : List PackageSnapshot}
    {currPkg prevPkg : PackageSnapshot}
    (h : lookupBase prevPackages (getBasePackageKey currPkg) = some prevPkg) :
    classifyPackage prevPackages currPkg =
      if getPackageKeyWithPercentage prevPkg ≠ getPackageKeyWithPercentage currPkg then
        PackageClass.offerChanged prevPkg.total prevPkg.efficiencyText
      else if getFullPackageKey prevPkg ≠ getFullPackageKey currPkg then
        PackageClass.priceChanged prevPkg.total prevPkg.efficiencyText
          (priceChangePayload prevPkg currPkg)
      else PackageClass.unchanged := by
  unfold classifyPackage
  rw [h]

/-- Behavior of classifyPackage when the base-key lookup finds nothing. -/
theorem classifyPackage_eq_of_none {prevPackages : List PackageSnapshot}
    {currPkg : PackageSnapshot}
    (h : lookupBase prevPackages (getBasePackageKey currPkg) = none) :
    classifyPackage prevPackages currPkg = PackageClass.new := by
  unfold classifyPackage
  rw [h]

/-- Two cards agree on the three signature components (quantity, name,
condition); the price is unconstrained. -/
def sameCardKey (c d : CardSnapshot) : Prop :=
  c.quantity = d.quantity ∧ c.name = d.name ∧ c.condition = d.condition

theorem cardSignature_eq_of_sameKey {c d : CardSnapshot} (h : sameCardKey c d) :
    cardSignature c = cardSignature d := by
  obtain ⟨h1, h2, h3⟩ := h
  unfold cardSignature
  rw [h1, h2, h3]

theorem map_cardSignature_eq {l1 l2 : List CardSnapshot}
    (h : List.Forall₂ sameCardKey l1 l2) :
    l1.map cardSignature = l2.map cardSignature := by
  induction h with
  | nil => rfl
  | cons hh _ ih => simp only [List.map_cons, cardSignature_eq_of_sameKey hh, ih]

theorem base_eq_of_sameKeys {p c : PackageSnapshot} (hu : p.username = c.username)
    (hc : List.Forall₂ sameCardKey p.cards c.cards) :
    getBasePackageKey p = getBasePackageKey c := by
  unfold getBasePackageKey
  rw [hu, map_cardSignature_eq hc]

/-- C1: when the current snapshot's base key matches a prior snapshot and
the prior snapshot's percentage key differs from the current one, the
classification is offerChanged with the prior total text and the prior
efficiency text as payload — regardless of how the full keys compare, so
the percentage check takes priority over the full-key price check. -/
theorem C1_offer_priority (prevPackages : List PackageSnapshot)
    (currPkg prevPkg : PackageSnapshot)
    (hfound : lookupBase prevPackages (getBasePackageKey currPkg) = some prevPkg)
    (hne : getPackageKeyWithPercentage prevPkg ≠ getPackageKeyWithPercentage currPkg) :
    classifyPackage prevPackages currPkg =
      PackageClass.offerChanged prevPkg.total prevPkg.efficiencyText := by
  rw [classifyPackage_eq_of_lookup hfound, if_pos hne]

/-- Witness for C1 at a concrete pair of snapshots with the same base key
and different efficiency percentages. -/
theorem C1_offer_priority_witness :
    classifyPackage
      [(⟨"a", "$1", "70% of $9", "70", []⟩ : PackageSnapshot)]
      (⟨"a", "$2", "85% of $9", "85", []⟩ : PackageSnapshot) =
      PackageClass.offerChanged ("$1") ("70% of $9") :=
  C1_offer_priority [⟨"a", "$1", "70% of $9", "70", []⟩]
    ⟨"a", "$2", "85% of $9", "85", []⟩ ⟨"a", "$1", "70% of $9", "70", []⟩
    (by decide) (by decide)

/-- C3: a current snapshot whose base key has no entry in the mapping built
from the previous set is classified new; and a cycle run with an absent
stored value (as after clear) classifies every parsed listing new. -/
theorem C3_unmatched_is_new :
    (∀ (prevPackages : List PackageSnapshot) (currPkg : PackageSnapshot),
        lookupBase prevPackages (getBasePackageKey currPkg) = none →
        classifyPackage prevPackages currPkg = PackageClass.new) ∧
    (∀ (page : List ListingElem) (currentPackages : List PackageSnapshot),
        parseAll page = some currentPackages →
        runCycle page none =
          some (currentPackages.map fun _ => PackageClass.new, currentPackages)) := by
  constructor
  · intro prevPackages currPkg h
    exact classifyPackage_eq_of_none h
  · intro page currentPackages h
    unfold runCycle
    rw [h]
    show some (classify currentPackages [], currentPackages) = _
    have hnew : ∀ p ∈ currentPackages, classifyPackage [] p = PackageClass.new :=
      fun p _ => classifyPackage_eq_of_none rfl
    unfold classify
    rw [List.map_congr_left hnew]

/-- Witness for C3 at a concrete snapshot and a concrete one-listing page. -/
theorem C3_unmatched_is_new_witness :
    classifyPackage [] (⟨"alice", "$10", "85% of $12", "85",
        [⟨"Foo", "NM", "$10", "1"⟩]⟩ : PackageSnapshot) = PackageClass.new ∧
    runCycle
      [(⟨some ⟨some ("alice"), some ("$10"), some ("85% of $12")⟩,
         [⟨some ("Foo"), some ("NM"), some ("$10"), "1x Foo NM $10", false⟩]⟩ : ListingElem)]
      none =
      some ([PackageClass.new],
        [⟨"alice", "$10", "85% of $12", "85", [⟨"Foo", "NM", "$10", "1"⟩]⟩]) :=
  ⟨C3_unmatched_is_new.1 []
      ⟨"alice", "$10", "85% of $12", "85", [⟨"Foo", "NM", "$10", "1"⟩]⟩ rfl,
    C3_unmatched_is_new.2
      [⟨some ⟨some ("alice"), some ("$10"), some ("85% of $12")⟩,
        [⟨some ("Foo"), some ("NM"), some ("$10"), "1x Foo NM $10", false⟩]⟩]
      [⟨"alice", "$10", "85% of $12", "85", [⟨"Foo", "NM", "$10", "1"⟩]⟩]
      (by decide)⟩

/-- C8: the base key is determined solely by the seller name and the card
signatures (quantity, name, condition) in canonical order: any two
snapshots agreeing on those — whatever their totals, card prices,
efficiency text or efficiency percentage — have equal base keys. -/
theorem C8_base_key_ignores_price (p c : PackageSnapshot)
    (hu : p.username = c.username)
    (hc : List.Forall₂ sameCardKey p.cards c.cards) :
    getBasePackageKey p = getBasePackageKey c :=
  base_eq_of_sameKeys hu hc

/-- Witness for C8: two snapshots differing in total, card price and
efficiency data but agreeing on seller and card identities share a base
key. -/
theorem C8_base_key_ignores_price_witness :
    getBasePackageKey (⟨"alice", "$10", "85% of $12", "85",
        [⟨"Foo", "NM", "$10", "1"⟩]⟩ : PackageSnapshot) =
    getBasePackageKey (⟨"alice", "$99", "20% of $90", "20",
        [⟨"Foo", "NM", "$99", "1"⟩]⟩ : PackageSnapshot) :=
  C8_base_key_ignores_price _ _ rfl
    (List.Forall₂.cons ⟨rfl, rfl, rfl⟩ List.Forall₂.nil)

instance : DecidablePred CtrlInv :=
  fun st => (inferInstance : Decidable (st.phase ≠ Phase.idle → st.isRunning = true))

/-- C4: the reentrancy guard is set in the same atomic step that begins the
asynchronous load (so it is set synchronously before the load), the
invariant that any in-flight suspension implies the guard holds of the
initial state and is preserved by every event, and a trigger arriving while
the guard is set — in particular while a load or save is in flight — is a
no-op. Hence at most one cycle is ever in flight. -/
theorem C4_guard_single_flight :
    CtrlInv initCtrl ∧
    (∀ (e : Event) (st : Ctrl), CtrlInv st → CtrlInv (step e st)) ∧
    (∀ (st : Ctrl) (b : Bool), st.isRunning = true →
        step (Event.trigger b) st = st) ∧
    (∀ (st : Ctrl) (b : Bool), CtrlInv st → st.phase ≠ Phase.idle →
        step (Event.trigger b) st = st) ∧
    (∀ (st : Ctrl) (b : Bool), CtrlInv st →
        (step (Event.trigger b) st).phase = Phase.loading →
        (step (Event.trigger b) st).isRunning = true) := by
  refine ⟨by decide, by decide, by decide, by decide, by decide⟩

/-- Witness for C4: a second trigger arriving while a cycle is suspended at
the load is a no-op. -/
theorem C4_guard_single_flight_witness :
    step (Event.trigger true)
      (⟨false, true, Phase.loading⟩ : Ctrl) = ⟨false, true, Phase.loading⟩ :=
  C4_guard_single_flight.2.2.1 ⟨false, true, Phase.loading⟩ true rfl

/-- A state with the guard set and no suspended task absorbs every event:
triggers are rejected by the guard and there is no pending store operation
to complete. -/
theorem stuck_state_absorbs (st : Ctrl) (hrun : st.isRunning = true)
    (hphase : st.phase = Phase.idle) :
    ∀ es : List Event, stepAll es st = st := by
  have hstep : ∀ e : Event, step e st = st := by
    intro e
    cases e with
    | trigger b => simp [step, hrun]
    | loadOk => simp [step, hphase]
    | loadFail => simp [step, hphase]
    | saveOk => simp [step, hphase]
    | saveFail => simp [step, hphase]
  intro es
  induction es with
  | nil => rfl
  | cons e es ih =>
    show stepAll es (step e st) = st
    rw [hstep e, ih]

/-- C9: a failing load or save leaves the guard set (the rejection
propagates out of the cycle, skipping the line that clears the flag), the
done flag is still unset, and the resulting state is absorbing: every
subsequent sequence of automatic events — triggers from the timer or the
mutation observer, or store completions — leaves the state unchanged, so a
failed cycle permanently blocks automatic retries. -/
theorem C9_failure_blocks_retries (st : Ctrl) (e : Event)
    (hrun : st.isRunning = true)
    (he : (e = Event.loadFail ∧ st.phase = Phase.loading) ∨
          (e = Event.saveFail ∧ st.phase = Phase.saving)) :
    (step e st).isRunning = true ∧ (step e st).isDone = st.isDone ∧
    (step e st).phase = Phase.idle ∧
    (∀ es : List Event, stepAll es (step e st) = step e st) := by
  have hst : step e st = { st with phase := Phase.idle } := by
    rcases he with ⟨he1, he2⟩ | ⟨he1, he2⟩ <;> subst he1 <;> simp [step, he2]
  rw [hst]
  exact ⟨hrun, rfl, rfl, stuck_state_absorbs _ hrun rfl⟩

/-- Witness for C9: after a load failure the controller ignores further
triggers and store events. -/
theorem C9_failure_blocks_retries_witness :
    (step Event.loadFail (⟨false, true, Phase.loading⟩ : Ctrl)).isRunning = true ∧
    (step Event.loadFail (⟨false, true, Phase.loading⟩ : Ctrl)).isDone = false ∧
    (step Event.loadFail (⟨false, true, Phase.loading⟩ : Ctrl)).phase = Phase.idle ∧
    stepAll [Event.trigger true, Event.loadOk, Event.trigger false, Event.saveOk]
        (step Event.loadFail (⟨false, true, Phase.loading⟩ : Ctrl)) =
      step Event.loadFail (⟨false, true, Phase.loading⟩ : Ctrl) := by
  have h := C9_failure_blocks_retries ⟨false, true, Phase.loading⟩
    Event.loadFail rfl (Or.inl ⟨rfl, rfl⟩)
  exact ⟨h.1, h.2.1, h.2.2.1, h.2.2.2 [Event.trigger true, Event.loadOk,
    Event.trigger false, Event.saveOk]⟩

/-- A list sorted by the name comparator whose names are pairwise distinct
is sorted by the strict comparator. -/
theorem sorted_cardLT_of_sorted_nodup {l : List CardSnapshot}
    (hs : List.Sorted cardLE l) (hnd : (l.map CardSnapshot.name).Nodup) :
    List.Sorted cardLT l := by
  have hs' : List.Pairwise cardLE l := hs
  have hpn : List.Pairwise (fun a b : CardSnapshot => a.name ≠ b.name) l :=
    List.pairwise_map.mp hnd
  exact List.Pairwise.imp
    (fun h => lt_of_le_of_ne h.1 (fun hd => h.2 (String.ext hd)))
    (List.Pairwise.and hs' hpn)

/-- On permuted inputs whose card names are pairwise distinct, the card
sort yields the same list. -/
theorem insertionSort_eq_of_perm {l1 l2 : List CardSnapshot} (hp : l1.Perm l2)
    (hnd : (l1.map CardSnapshot.name).Nodup) :
    List.insertionSort cardLE l1 = List.insertionSort cardLE l2 := by
  have hnd1 : ((List.insertionSort cardLE l1).map CardSnapshot.name).Nodup :=
    ((List.perm_insertionSort cardLE l1).map CardSnapshot.name).nodup_iff.mpr hnd
  have hnd2' : (l2.map CardSnapshot.name).Nodup :=
    (hp.map CardSnapshot.name).nodup_iff.mp hnd
  have hnd2 : ((List.insertionSort cardLE l2).map CardSnapshot.name).Nodup :=
    ((List.perm_insertionSort cardLE l2).map CardSnapshot.name).nodup_iff.mpr hnd2'
  exact List.eq_of_perm_of_sorted
    ((List.perm_insertionSort cardLE l1).trans
      (hp.trans (List.perm_insertionSort cardLE l2).symm))
    (sorted_cardLT_of_sorted_nodup (List.sorted_insertionSort cardLE l1) hnd1)
    (sorted_cardLT_of_sorted_nodup (List.sorted_insertionSort cardLE l2) hnd2)

/-- C5 (amended): every extracted snapshot's card sequence is sorted by the
name comparator, and extraction is invariant under reordering of the source
card items provided the parsed card names are pairwise distinct. (As
stated, the claim fails: for two cards with equal names the stable sort
preserves source order, so differently ordered sources can yield different
snapshots and different full keys — see the counterexample.) -/
theorem C5_sort_deterministic :
    (∀ (e : ListingElem) (s : PackageSnapshot), parsePackage e = some s →
        List.Sorted cardLE s.cards) ∧
    (∀ e1 e2 : ListingElem, e1.heading = e2.heading → e1.items.Perm e2.items →
        (((e1.items.filter fun li => !li.isMore).map parseCard).map
            CardSnapshot.name).Nodup →
        parsePackage e1 = parsePackage e2) := by
  constructor
  · intro e s h
    unfold parsePackage at h
    cases hh : e.heading with
    | none => rw [hh] at h; exact absurd h (by simp)
    | some hd =>
      rw [hh] at h
      have hs := Option.some.inj h
      subst hs
      exact List.sorted_insertionSort cardLE _
  · intro e1 e2 hh hp hnd
    unfold parsePackage
    rw [hh]
    cases hh2 : e2.heading with
    | none => rfl
    | some hd =>
      have hcards :
          List.insertionSort cardLE
            ((e1.items.filter fun li => !li.isMore).map parseCard) =
          List.insertionSort cardLE
            ((e2.items.filter fun li => !li.isMore).map parseCard) :=
        insertionSort_eq_of_perm ((hp.filter (fun li => !li.isMore)).map parseCard) hnd
      rw [hcards]

/-- C5 counterexample: two listings with identical field values whose two
card items share a name but differ in price, in opposite source orders,
extract to different snapshots (the stable sort keeps source order on equal
names), refuting order-invariance as universally stated. -/
theorem C5_counterexample :
    parsePackage (⟨some ⟨none, none, none⟩,
        [⟨some ("A"), none, some ("$1"), "", false⟩,
         ⟨some ("A"), none, some ("$2"), "", false⟩]⟩ : ListingElem) ≠
    parsePackage (⟨some ⟨none, none, none⟩,
        [⟨some ("A"), none, some ("$2"), "", false⟩,
         ⟨some ("A"), none, some ("$1"), "", false⟩]⟩ : ListingElem) := by
  decide

/-- Witness for C5 at a concrete pair of listings with distinct card
names in opposite source orders. -/
theorem C5_sort_deterministic_witness :
    List.Sorted cardLE
      ((⟨"", "", "", "", [⟨"A", "", "$1", "1"⟩, ⟨"B", "", "$2", "1"⟩]⟩ :
        PackageSnapshot).cards) ∧
    parsePackage (⟨some ⟨none, none, none⟩,
        [⟨some ("B"), none, some ("$2"), "", false⟩,
         ⟨some ("A"), none, some ("$1"), "", false⟩]⟩ : ListingElem) =
    parsePackage (⟨some ⟨none, none, none⟩,
        [⟨some ("A"), none, some ("$1"), "", false⟩,
         ⟨some ("B"), none, some ("$2"), "", false⟩]⟩ : ListingElem) :=
  ⟨C5_sort_deterministic.1
      ⟨some ⟨none, none, none⟩,
        [⟨some ("B"), none, some ("$2"), "", false⟩,
         ⟨some ("A"), none, some ("$1"), "", false⟩]⟩
      ⟨"", "", "", "", [⟨"A", "", "$1", "1"⟩, ⟨"B", "", "$2", "1"⟩]⟩
      (by decide),
    C5_sort_deterministic.2
      ⟨some ⟨none, none, none⟩,
        [⟨some ("B"), none, some ("$2"), "", false⟩,
         ⟨some ("A"), none, some ("$1"), "", false⟩]⟩
      ⟨some ⟨none, none, none⟩,
        [⟨some ("A"), none, some ("$1"), "", false⟩,
         ⟨some ("B"), none, some ("$2"), "", false⟩]⟩
      rfl (by decide) (by decide)⟩

/-- C6 counterexample: a listing element with no heading region makes
extraction fail (the script dereferences a null heading and throws),
refuting the claim that extract never fails for any missing sub-element. -/
theorem C6_counterexample :
    parsePackage (⟨none, []⟩ : ListingElem) = none := rfl

/-- C6 (amended): for every listing element whose heading region is
present, extraction succeeds; each absent sub-element below the heading
yields the empty string, a missing efficiency indicator also yields an
empty percentage, every extracted card comes from a non-placeholder item,
and at card level a missing link, condition marker or price element yields
the empty string while a missing quantity pattern yields quantity one. A
listing with a missing heading region is the one exception: there
extraction fails instead of degrading. -/
theorem C6_extract_tolerance :
    (∀ (e : ListingElem) (hd : HeadingElem), e.heading = some hd →
        ∃ s : PackageSnapshot, parsePackage e = some s ∧
          (hd.linkText = none → s.username = "") ∧
          (hd.strongText = none → s.total = "") ∧
          (hd.efficiencyIdx = none →
            s.efficiencyText = "" ∧ s.efficiencyPercentage = "") ∧
          (∀ c ∈ s.cards, ∃ li ∈ e.items, li.isMore = false ∧ c = parseCard li)) ∧
    (∀ li : ItemElem,
        (li.linkText = none → (parseCard li).name = "") ∧
        (li.conditionText = none → (parseCard li).condition = "") ∧
        (li.strongText = none → (parseCard li).price = "") ∧
        (firstDigitRunBefore 'x' li.textContent.data = none →
          (parseCard li).quantity = "1")) := by
  constructor
  · intro e hd hh
    have hps : parsePackage e = some
        { username := hd.linkText.getD ("")
          total := hd.strongText.getD ("")
          efficiencyText := hd.efficiencyIdx.getD ("")
          efficiencyPercentage :=
            (firstDigitRunBefore '%' (hd.efficiencyIdx.getD ("")).data).getD ("")
          cards := List.insertionSort cardLE
            ((e.items.filter (fun li => !li.isMore)).map parseCard) } := by
      unfold parsePackage
      rw [hh]
    refine ⟨_, hps, ?_, ?_, ?_, ?_⟩
    · intro h1; simp [h1]
    · intro h1; simp [h1]
    · intro h1
      refine ⟨by simp [h1], ?_⟩
      show (firstDigitRunBefore '%' (hd.efficiencyIdx.getD ("")).data).getD ("") = ""
      rw [h1]
      rfl
    · intro c hc
      have hc1 : c ∈ (e.items.filter (fun li => !li.isMore)).map parseCard :=
        (List.perm_insertionSort cardLE _).mem_iff.mp hc
      obtain ⟨li, hli, hpc⟩ := List.mem_map.mp hc1
      have hfl := List.mem_filter.mp hli
      exact ⟨li, hfl.1, by simpa using hfl.2, hpc.symm⟩
  · intro li
    refine ⟨?_, ?_, ?_, ?_⟩ <;> intro h1 <;> simp [parseCard, h1]

/-- Witness for C6 at a concrete listing whose heading is present but all
of whose other sub-elements are absent. -/
theorem C6_extract_tolerance_witness :
    ∃ s : PackageSnapshot,
      parsePackage (⟨some ⟨none, none, none⟩,
          [⟨none, none, none, "", false⟩]⟩ : ListingElem) = some s ∧
      s.username = "" := by
  obtain ⟨s, hs, h1, h2, h3, h4⟩ :=
    C6_extract_tolerance.1
      ⟨some ⟨none, none, none⟩, [⟨none, none, none, "", false⟩]⟩
      ⟨none, none, none⟩ rfl
  exact ⟨s, hs, h1 rfl⟩

/-- Splitting a bar-join around one distinguished element: the surrounding
text depends only on the other elements. -/
theorem joinBar_split (pre post : List String) :
    ∃ A B : String, ∀ x : String, joinBar (pre ++ x :: post) = A ++ x ++ B := by
  induction pre with
  | nil =>
    cases post with
    | nil =>
      refine ⟨"", "", fun x => ?_⟩
      show joinBar [x] = "" ++ x ++ ""
      apply String.ext
      simp [joinBar, String.data_append]
    | cons p ps =>
      refine ⟨"", "|" ++ joinBar (p :: ps), fun x => ?_⟩
      show joinBar (x :: p :: ps) = "" ++ x ++ ("|" ++ joinBar (p :: ps))
      apply String.ext
      simp [joinBar, String.data_append]
  | cons p ps ih =>
    obtain ⟨A, B, hAB⟩ := ih
    refine ⟨p ++ "|" ++ A, B, fun x => ?_⟩
    have hne : ps ++ x :: post ≠ [] := by simp
    have hcons : joinBar (p :: (ps ++ x :: post)) =
        p ++ "|" ++ joinBar (ps ++ x :: post) := by
      cases hq : ps ++ x :: post with
      | nil => exact absurd hq hne
      | cons q qs => rfl
    show joinBar (p :: (ps ++ x :: post)) = p ++ "|" ++ A ++ x ++ B
    rw [hcons, hAB x]
    apply String.ext
    simp [String.data_append, List.append_assoc]

/-- When a separator character occurs in neither left part, equality of the
assembled lists forces equality of both parts. -/
theorem sep_split_inj {sep : Char} :
    ∀ {l1 l2 r1 r2 : List Char}, sep ∉ l1 → sep ∉ l2 →
      l1 ++ sep :: r1 = l2 ++ sep :: r2 → l1 = l2 ∧ r1 = r2 := by
  intro l1
  induction l1 with
  | nil =>
    intro l2 r1 r2 _ h2 h
    cases l2 with
    | nil => simp_all
    | cons b bs =>
      exfalso
      have hb : sep = b := by simpa using congrArg List.head? h
      exact h2 (hb ▸ List.mem_cons_self b bs)
  | cons a as ih =>
    intro l2 r1 r2 h1 h2 h
    cases l2 with
    | nil =>
      exfalso
      have ha : a = sep := by simpa using congrArg List.head? h
      exact h1 (ha ▸ List.mem_cons_self a as)
    | cons b bs =>
      have hab : a = b := by simpa using congrArg List.head? h
      have htl : as ++ sep :: r1 = bs ++ sep :: r2 := by
        simpa [hab] using congrArg List.tail h
      have h1' : sep ∉ as := fun hm => h1 (List.mem_cons_of_mem a hm)
      have h2' : sep ∉ bs := fun hm => h2 (List.mem_cons_of_mem b hm)
      obtain ⟨he, hr⟩ := ih h1' h2' htl
      exact ⟨by rw [hab, he], hr⟩

/-- Two snapshots with the same card list but different usernames have
different base keys. -/
theorem base_ne_of_username_ne {p c : PackageSnapshot} (hc : p.cards = c.cards)
    (hu : p.username ≠ c.username) :
    getBasePackageKey p ≠ getBasePackageKey c := by
  intro h
  apply hu
  unfold getBasePackageKey at h
  rw [hc] at h
  exact str_append_right_cancel (str_append_right_cancel h)

/-- Two snapshots with the same username whose card lists differ in exactly
one position, with different signatures there, have different base keys. -/
theorem base_ne_of_single_sig_ne {p c : PackageSnapshot}
    {pre post : List CardSnapshot} {x y : CardSnapshot}
    (hu : p.username = c.username)
    (hp : p.cards = pre ++ x :: post) (hc : c.cards = pre ++ y :: post)
    (hxy : cardSignature x ≠ cardSignature y) :
    getBasePackageKey p ≠ getBasePackageKey c := by
  intro h
  apply hxy
  unfold getBasePackageKey at h
  rw [hu, hp, hc, List.map_append, List.map_cons, List.map_append,
    List.map_cons] at h
  obtain ⟨A, B, hAB⟩ := joinBar_split (pre.map cardSignature) (post.map cardSignature)
  rw [hAB, hAB] at h
  have h1 : A ++ cardSignature x ++ B = A ++ cardSignature y ++ B :=
    str_append_left_cancel h
  exact str_append_left_cancel (str_append_right_cancel h1)

/-- C7 (amended): the three keys are pure functions of the snapshot —
field-wise equal snapshots yield equal base, percentage and full keys — and
base keys separate snapshots that differ in a single base-key component:
with equal card lists, different usernames give different base keys; with
equal usernames and card lists differing in exactly one position whose
signatures differ, base keys differ; and a card signature separates each
single component (quantity, name or condition) when the other two agree.
(As stated, the claim fails: snapshots differing in several components at
once can collide, because field values can embed the dash and bar
delimiters — see the counterexample.) -/
theorem C7_keys_pure_and_injective :
    (∀ p c : PackageSnapshot,
        p.username = c.username → p.total = c.total →
        p.efficiencyText = c.efficiencyText →
        p.efficiencyPercentage = c.efficiencyPercentage →
        p.cards = c.cards →
        getBasePackageKey p = getBasePackageKey c ∧
        getPackageKeyWithPercentage p = getPackageKeyWithPercentage c ∧
        getFullPackageKey p = getFullPackageKey c) ∧
    (∀ p c : PackageSnapshot, p.cards = c.cards → p.username ≠ c.username →
        getBasePackageKey p ≠ getBasePackageKey c) ∧
    (∀ (p c : PackageSnapshot) (pre post : List CardSnapshot)
        (x y : CardSnapshot),
        p.username = c.username →
        p.cards = pre ++ x :: post → c.cards = pre ++ y :: post →
        cardSignature x ≠ cardSignature y →
        getBasePackageKey p ≠ getBasePackageKey c) ∧
    (∀ x y : CardSnapshot,
        (x.name = y.name → x.condition = y.condition → x.quantity ≠ y.quantity →
          cardSignature x ≠ cardSignature y) ∧
        (x.quantity = y.quantity → x.condition = y.condition → x.name ≠ y.name →
          cardSignature x ≠ cardSignature y) ∧
        (x.quantity = y.quantity → x.name = y.name → x.condition ≠ y.condition →
          cardSignature x ≠ cardSignature y)) := by
  refine ⟨?_, ?_, ?_, ?_⟩
  · intro p c h1 h2 h3 h4 h5
    have hpc : p = c := by
      cases p; cases c; simp_all
    subst hpc
    exact ⟨rfl, rfl, rfl⟩
  · intro p c hc hu
    exact base_ne_of_username_ne hc hu
  · intro p c pre post x y hu hp hc hxy
    exact base_ne_of_single_sig_ne hu hp hc hxy
  · intro x y
    refine ⟨?_, ?_, ?_⟩
    · intro hn hcnd hq h
      apply hq
      unfold cardSignature at h
      rw [hn, hcnd] at h
      exact str_append_right_cancel (str_append_right_cancel
        (str_append_right_cancel (str_append_right_cancel h)))
    · intro hq hcnd hn h
      apply hn
      unfold cardSignature at h
      rw [hq, hcnd] at h
      have h1 := str_append_right_cancel (str_append_right_cancel h)
      exact str_append_left_cancel h1
    · intro hq hn hcnd h
      apply hcnd
      unfold cardSignature at h
      rw [hq, hn] at h
      exact str_append_left_cancel h

/-- C7 counterexample: two snapshots that differ in their seller name (one
embedding the dash delimiter and a signature) share a base key, refuting
base-key injectivity across differing components as universally stated. -/
theorem C7_counterexample :
    getBasePackageKey (⟨"a-1x b c", "", "", "", []⟩ : PackageSnapshot) =
      getBasePackageKey (⟨"a", "", "", "",
        [⟨"b", "c-", "p", "1"⟩]⟩ : PackageSnapshot) ∧
    (⟨"a-1x b c", "", "", "", []⟩ : PackageSnapshot).username ≠
      (⟨"a", "", "", "", [⟨"b", "c-", "p", "1"⟩]⟩ : PackageSnapshot).username := by
  decide

/-- Witness for C7: field-wise equal snapshots share all keys, and two
snapshots differing only in the seller name have different base keys. -/
theorem C7_keys_pure_and_injective_witness :
    getBasePackageKey (⟨"alice", "$10", "85%", "85",
        [⟨"Foo", "NM", "$10", "1"⟩]⟩ : PackageSnapshot) =
      getBasePackageKey (⟨"alice", "$10", "85%", "85",
        [⟨"Foo", "NM", "$10", "1"⟩]⟩ : PackageSnapshot) ∧
    getBasePackageKey (⟨"alice", "$10", "85%", "85",
        [⟨"Foo", "NM", "$10", "1"⟩]⟩ : PackageSnapshot) ≠
      getBasePackageKey (⟨"bob", "$10", "85%", "85",
        [⟨"Foo", "NM", "$10", "1"⟩]⟩ : PackageSnapshot) :=
  ⟨(C7_keys_pure_and_injective.1
      ⟨"alice", "$10", "85%", "85", [⟨"Foo", "NM", "$10", "1"⟩]⟩
      ⟨"alice", "$10", "85%", "85", [⟨"Foo", "NM", "$10", "1"⟩]⟩
      rfl rfl rfl rfl rfl).1,
    C7_keys_pure_and_injective.2.1
      ⟨"alice", "$10", "85%", "85", [⟨"Foo", "NM", "$10", "1"⟩]⟩
      ⟨"bob", "$10", "85%", "85", [⟨"Foo", "NM", "$10", "1"⟩]⟩
      rfl (by decide)⟩

/-- When the queried key matches no card of the list, the lookup fold
returns its accumulator. -/
theorem lookupCard_foldl_no_match (k : String) :
    ∀ (l : List CardSnapshot) (acc : Option CardSnapshot),
      (∀ d ∈ l, cardSignature d ≠ k) →
      l.foldl (fun a d => if cardSignature d = k then some d else a) acc = acc := by
  intro l
  induction l with
  | nil => intro acc _; rfl
  | cons d tl ih =>
    intro acc hno
    have hd : cardSignature d ≠ k := hno d (List.mem_cons_self d tl)
    show tl.foldl _ (if cardSignature d = k then some d else acc) = acc
    rw [if_neg hd]
    exact ih acc (fun e he => hno e (List.mem_cons_of_mem d he))

/-- When the head matches and no tail card does, the lookup returns the
head. -/
theorem lookupPrevCard_head {d : CardSnapshot} {tl : List CardSnapshot}
    {k : String} (hd : cardSignature d = k)
    (hno : ∀ e ∈ tl, cardSignature e ≠ k) :
    lookupPrevCard (d :: tl) k = some d := by
  unfold lookupPrevCard
  show tl.foldl _ (if cardSignature d = k then some d else none) = some d
  rw [if_pos hd]
  exact lookupCard_foldl_no_match k tl (some d) hno

/-- When the head does not match, the lookup continues on the tail. -/
theorem lookupPrevCard_skip {d : CardSnapshot} {tl : List CardSnapshot}
    {k : String} (hd : cardSignature d ≠ k) :
    lookupPrevCard (d :: tl) k = lookupPrevCard tl k := by
  unfold lookupPrevCard
  show tl.foldl _ (if cardSignature d = k then some d else none) = _
  rw [if_neg hd]

/-- For aligned card lists with equal signatures position by position and
pairwise distinct current signatures, the per-card lookup payload is
exactly the position-wise comparison: the pairs of current card and
previous price at the positions where the price texts differ. -/
theorem payload_eq_zip :
    ∀ {pcards ccards : List CardSnapshot},
      List.Forall₂ sameCardKey pcards ccards →
      (ccards.map cardSignature).Nodup →
      (ccards.filterMap fun card =>
        match lookupPrevCard pcards (cardSignature card) with
        | some prevCard =>
          if prevCard.price ≠ card.price then some (card, prevCard.price) else none
        | none => none) =
      ((ccards.zip pcards).filterMap fun pr =>
        if pr.2.price ≠ pr.1.price then some (pr.1, pr.2.price) else none) := by
  intro pcards ccards hf
  induction hf with
  | nil => intro _; rfl
  | @cons pc cc ptl ctl hh ht ih =>
    intro hnd
    rw [List.map_cons] at hnd
    have hnd_tail : (ctl.map cardSignature).Nodup := (List.nodup_cons.mp hnd).2
    have hnotmem : cardSignature cc ∉ ctl.map cardSignature :=
      (List.nodup_cons.mp hnd).1
    have hmaps : ptl.map cardSignature = ctl.map cardSignature :=
      map_cardSignature_eq ht
    have hsig : cardSignature pc = cardSignature cc :=
      cardSignature_eq_of_sameKey hh
    have hno_tl : ∀ e ∈ ptl, cardSignature e ≠ cardSignature cc := by
      intro e he hcontra
      apply hnotmem
      rw [← hcontra, ← hmaps]
      exact List.mem_map_of_mem cardSignature he
    have hlook_head : lookupPrevCard (pc :: ptl) (cardSignature cc) = some pc :=
      lookupPrevCard_head hsig hno_tl
    have hlook_tail : ∀ card ∈ ctl,
        lookupPrevCard (pc :: ptl) (cardSignature card) =
          lookupPrevCard ptl (cardSignature card) := by
      intro card hcard
      apply lookupPrevCard_skip
      rw [hsig]
      intro hcontra
      apply hnotmem
      rw [hcontra]
      exact List.mem_map_of_mem cardSignature hcard
    have htail_eq : (ctl.filterMap fun card =>
        match lookupPrevCard (pc :: ptl) (cardSignature card) with
        | some prevCard =>
          if prevCard.price ≠ card.price then some (card, prevCard.price) else none
        | none => none) =
        ((ctl.zip ptl).filterMap fun pr =>
          if pr.2.price ≠ pr.1.price then some (pr.1, pr.2.price) else none) := by
      rw [List.filterMap_congr (fun card hcard => by rw [hlook_tail card hcard])]
      exact ih hnd_tail
    rw [List.zip_cons_cons, List.filterMap_cons, List.filterMap_cons]
    simp only [hlook_head, htail_eq]

/-- Two snapshots with the same username whose total texts differ and are
both free of the dash delimiter have different full keys, whatever their
other fields. -/
theorem full_ne_of_total_ne {p c : PackageSnapshot}
    (hu : p.username = c.username) (ht : p.total ≠ c.total)
    (h1 : '-' ∉ p.total.data) (h2 : '-' ∉ c.total.data) :
    getFullPackageKey p ≠ getFullPackageKey c := by
  intro h
  apply ht
  apply String.ext
  have hd := congrArg String.data h
  unfold getFullPackageKey at hd
  simp only [String.data_append, dash_data, List.append_assoc,
    List.singleton_append, hu] at hd
  have hd1 := List.append_cancel_left hd
  injection hd1 with _ hd2
  exact (sep_split_inj h1 h2 hd2).1

/-- C2 (amended): for a previous and a current snapshot with the same
seller, the same efficiency percentage and position-wise identical card
identities (quantity, name, condition), where at least one card's price
text differs and the package total text differs, classification against the
one-element previous set is priceChanged carrying the prior total and prior
efficiency text, and the card payload is exactly the pairs of current card
and prior price at the positions whose price texts differ — provided the
total texts are free of the dash delimiter and the current card signatures
are pairwise distinct. (As stated, the claim fails: price and total texts
embedding delimiter patterns can make the full keys collide so that the
pair is classified unchanged — see the counterexample.) -/
theorem C2_price_changed (prevPkg currPkg : PackageSnapshot)
    (hu : prevPkg.username = currPkg.username)
    (hpct : prevPkg.efficiencyPercentage = currPkg.efficiencyPercentage)
    (hcards : List.Forall₂ sameCardKey prevPkg.cards currPkg.cards)
    (hpr : ∃ pr ∈ currPkg.cards.zip prevPkg.cards, pr.2.price ≠ pr.1.price)
    (ht : prevPkg.total ≠ currPkg.total)
    (hd1 : '-' ∉ prevPkg.total.data) (hd2 : '-' ∉ currPkg.total.data)
    (hnd : (currPkg.cards.map cardSignature).Nodup) :
    classifyPackage [prevPkg] currPkg =
      PackageClass.priceChanged prevPkg.total prevPkg.efficiencyText
        ((currPkg.cards.zip prevPkg.cards).filterMap fun pr =>
          if pr.2.price ≠ pr.1.price then some (pr.1, pr.2.price) else none) := by
  have hbase : getBasePackageKey prevPkg = getBasePackageKey currPkg :=
    base_eq_of_sameKeys hu hcards
  have hlook : lookupBase [prevPkg] (getBasePackageKey currPkg) = some prevPkg := by
    unfold lookupBase
    show (if getBasePackageKey prevPkg = getBasePackageKey currPkg
      then some prevPkg else none) = some prevPkg
    rw [if_pos hbase]
  have hpk : getPackageKeyWithPercentage prevPkg =
      getPackageKeyWithPercentage currPkg := by
    unfold getPackageKeyWithPercentage
    rw [hbase, hpct]
  have hfull : getFullPackageKey prevPkg ≠ getFullPackageKey currPkg :=
    full_ne_of_total_ne hu ht hd1 hd2
  rw [classifyPackage_eq_of_lookup hlook, if_neg (not_not_intro hpk),
    if_pos hfull]
  unfold priceChangePayload
  rw [payload_eq_zip hcards hnd]

/-- C2 counterexample: a previous and a current snapshot with identical
seller, identical card identities and identical (empty) efficiency
percentage, with differing total texts and a differing card price text,
whose full keys nevertheless coincide because the delimiter patterns occur
inside the price and total texts — the pair is classified unchanged rather
than priceChanged. -/
theorem C2_counterexample :
    classifyPackage
      [(⟨"u", "t", "", "",
        [⟨"A", "", "q--1x A  r", "1"⟩, ⟨"A", "", "s", "1"⟩]⟩ : PackageSnapshot)]
      (⟨"u", "t--1x A  q", "", "",
        [⟨"A", "", "r", "1"⟩, ⟨"A", "", "s", "1"⟩]⟩ : PackageSnapshot) =
      PackageClass.unchanged ∧
    ("t" : String) ≠ "t--1x A  q" ∧
    ("q--1x A  r" : String) ≠ "r" := by
  decide

/-- Witness for C2 at a concrete realistic pair: same seller, same card
identity and percentage, a changed card price and a changed total. -/
theorem C2_price_changed_witness :
    classifyPackage
      [(⟨"alice", "$10", "85% of $12", "85",
        [⟨"Foo", "NM", "$10", "1"⟩]⟩ : PackageSnapshot)]
      (⟨"alice", "$12", "85% of $14", "85",
        [⟨"Foo", "NM", "$12", "1"⟩]⟩ : PackageSnapshot) =
      PackageClass.priceChanged ("$10") ("85% of $12")
        (((⟨"alice", "$12", "85% of $14", "85",
            [⟨"Foo", "NM", "$12", "1"⟩]⟩ : PackageSnapshot).cards.zip
          (⟨"alice", "$10", "85% of $12", "85",
            [⟨"Foo", "NM", "$10", "1"⟩]⟩ : PackageSnapshot).cards).filterMap
          fun pr =>
            if pr.2.price ≠ pr.1.price then some (pr.1, pr.2.price) else none) :=
  C2_price_changed
    ⟨"alice", "$10", "85% of $12", "85", [⟨"Foo", "NM", "$10", "1"⟩]⟩
    ⟨"alice", "$12", "85% of $14", "85", [⟨"Foo", "NM", "$12", "1"⟩]⟩
    rfl rfl
    (List.Forall₂.cons ⟨rfl, rfl, rfl⟩ List.Forall₂.nil)
    ⟨(⟨"Foo", "NM", "$12", "1"⟩, ⟨"Foo", "NM", "$10", "1"⟩),
      by decide, by decide⟩
    (by decide) (by decide) (by decide) (by decide)

/-- When no package of the list matches the key, the base-key lookup fold
returns its accumulator. -/
theorem lookupBase_foldl_no_match (k : String) :
    ∀ (l : List PackageSnapshot) (acc : Option PackageSnapshot),
      (∀ q ∈ l, getBasePackageKey q ≠ k) →
      l.foldl (fun a p => if getBasePackageKey p = k then some p else a) acc = acc := by
  intro l
  induction l with
  | nil => intro acc _; rfl
  | cons r tl ih =>
    intro acc hno
    have hr : getBasePackageKey r ≠ k := hno r (List.mem_cons_self r tl)
    show tl.foldl _ (if getBasePackageKey r = k then some r else acc) = acc
    rw [if_neg hr]
    exact ih acc (fun q hq => hno q (List.mem_cons_of_mem r hq))

/-- When some package of the list matches the key, the base-key lookup fold
does not depend on its accumulator (the last match wins). -/
theorem lookupBase_foldl_acc_irrel (k : String) :
    ∀ (l : List PackageSnapshot), (∃ q ∈ l, getBasePackageKey q = k) →
      ∀ acc : Option PackageSnapshot,
        l.foldl (fun a p => if getBasePackageKey p = k then some p else a) acc =
        l.foldl (fun a p => if getBasePackageKey p = k then some p else a) none := by
  intro l
  induction l with
  | nil => rintro ⟨q, hq, _⟩; cases hq
  | cons r tl ih =>
    rintro ⟨q, hq, hk⟩ acc
    show tl.foldl _ (if getBasePackageKey r = k then some r else acc) =
      tl.foldl _ (if getBasePackageKey r = k then some r else none)
    by_cases hr : getBasePackageKey r = k
    · rw [if_pos hr, if_pos hr]
    · rw [if_neg hr, if_neg hr]
      have hqtl : q ∈ tl := by
        rcases List.mem_cons.mp hq with h | h
        · exact absurd (h ▸ hk) hr
        · exact h
      rw [ih ⟨q, hqtl, hk⟩ acc]

/-- A package that is the unique holder of its base key in the list is what
the lookup returns for that key. -/
theorem lookupBase_self : ∀ (s : List PackageSnapshot) (p : PackageSnapshot),
    p ∈ s → (∀ q ∈ s, getBasePackageKey q = getBasePackageKey p → q = p) →
    lookupBase s (getBasePackageKey p) = some p := by
  intro s
  induction s with
  | nil => intro p hmem _; cases hmem
  | cons r tl ih =>
    intro p hmem huniq
    by_cases hrt : p ∈ tl
    · have h1 : lookupBase (r :: tl) (getBasePackageKey p) =
          lookupBase tl (getBasePackageKey p) := by
        unfold lookupBase
        show tl.foldl _
            (if getBasePackageKey r = getBasePackageKey p then some r else none) =
          tl.foldl _ none
        exact lookupBase_foldl_acc_irrel _ tl ⟨p, hrt, rfl⟩ _
      rw [h1]
      exact ih p hrt (fun q hq he => huniq q (List.mem_cons_of_mem r hq) he)
    · have hpr : p = r := by
        rcases List.mem_cons.mp hmem with h | h
        · exact h
        · exact absurd h hrt
      subst hpr
      have hno : ∀ q ∈ tl, getBasePackageKey q ≠ getBasePackageKey p := by
        intro q hq he
        exact hrt ((huniq q (List.mem_cons_of_mem p hq) he) ▸ hq)
      unfold lookupBase
      show tl.foldl _
          (if getBasePackageKey p = getBasePackageKey p then some p else none) =
        some p
      rw [if_pos rfl]
      exact lookupBase_foldl_no_match _ tl (some p) hno

/-- Classifying a snapshot set against itself yields unchanged everywhere,
provided the base keys are pairwise distinct. -/
theorem classify_self_unchanged {s : List PackageSnapshot}
    (hnd : (s.map getBasePackageKey).Nodup) :
    ∀ p ∈ s, classifyPackage s p = PackageClass.unchanged := by
  intro p hmem
  have hl : lookupBase s (getBasePackageKey p) = some p :=
    lookupBase_self s p hmem
      (fun q hq he => List.inj_on_of_nodup_map hnd hq hmem he)
  rw [classifyPackage_eq_of_lookup hl, if_neg (not_not_intro rfl),
    if_neg (not_not_intro rfl)]

/-- C10 (amended): running a second cycle with unchanged markup classifies
every listing unchanged (with no payload) and persists the same snapshot
set as the first cycle — provided the persisted snapshots' base keys are
pairwise distinct. (As stated, the claim fails: two listings sharing a base
key shadow each other in the lookup mapping, so the second cycle can
classify one of them offerChanged — see the counterexample.) -/
theorem C10_second_cycle_idempotent (page : List ListingElem)
    (stored0 : Option (List PackageSnapshot))
    (cls1 : List PackageClass) (saved1 : List PackageSnapshot)
    (h1 : runCycle page stored0 = some (cls1, saved1))
    (hnd : (saved1.map getBasePackageKey).Nodup) :
    runCycle page (some saved1) =
      some (saved1.map fun _ => PackageClass.unchanged, saved1) := by
  unfold runCycle at h1 ⊢
  cases hpa : parseAll page with
  | none => rw [hpa] at h1; exact absurd h1 (by simp)
  | some cur =>
    rw [hpa] at h1
    have hcur : cur = saved1 := congrArg Prod.snd (Option.some.inj h1)
    rw [← hcur] at hnd ⊢
    show some (classify cur cur, cur) =
      some (cur.map fun _ => PackageClass.unchanged, cur)
    unfold classify
    rw [List.map_congr_left (classify_self_unchanged hnd)]

/-- C10 counterexample: a set holding two snapshots with the same base key
but different efficiency percentages is not classified all-unchanged
against itself — the first listing is shadowed by the second in the lookup
mapping and reported offerChanged. -/
theorem C10_counterexample :
    classify
      [(⟨"u", "$1", "1% of $9", "1", []⟩ : PackageSnapshot),
       (⟨"u", "$2", "2% of $9", "2", []⟩ : PackageSnapshot)]
      [(⟨"u", "$1", "1% of $9", "1", []⟩ : PackageSnapshot),
       (⟨"u", "$2", "2% of $9", "2", []⟩ : PackageSnapshot)] ≠
    List.map (fun _ => PackageClass.unchanged)
      [(⟨"u", "$1", "1% of $9", "1", []⟩ : PackageSnapshot),
       (⟨"u", "$2", "2% of $9", "2", []⟩ : PackageSnapshot)] := by
  decide

/-- Witness for C10 at a concrete one-listing page: the first cycle from an
absent store classifies it new and persists it; the second cycle classifies
it unchanged and persists the same set. -/
theorem C10_second_cycle_idempotent_witness :
    runCycle
      [(⟨some ⟨some ("alice"), some ("$10"), some ("85% of $12")⟩,
        [⟨some ("Foo"), some ("NM"), some ("$10"), "2x Foo NM $10", false⟩]⟩ :
        ListingElem)]
      (some [⟨"alice", "$10", "85% of $12", "85", [⟨"Foo", "NM", "$10", "2"⟩]⟩]) =
      some ([PackageClass.unchanged],
        [⟨"alice", "$10", "85% of $12", "85", [⟨"Foo", "NM", "$10", "2"⟩]⟩]) :=
  C10_second_cycle_idempotent
    [⟨some ⟨some ("alice"), some ("$10"), some ("85% of $12")⟩,
      [⟨some ("Foo"), some ("NM"), some ("$10"), "2x Foo NM $10", false⟩]⟩]
    none [PackageClass.new]
    [⟨"alice", "$10", "85% of $12", "85", [⟨"Foo", "NM", "$10", "2"⟩]⟩]
    (by decide) (by decide)
